import Mathlib

/-!
Verification of the cart service in src/cart/server.js.

The data model and the route handlers are embedded shallowly: JavaScript
numbers are modelled as rationals, the Redis keyspace as a function from
string keys to optionally stored bytes, and each Express handler as a
function from the store and its request parameters to a response together
with the resulting store.
-/

namespace CartService

/-- A cart line item, as built by the add and shipping handlers in
src/cart/server.js. -/
structure LineItem where
  sku : String
  name : String
  qty : Int
  price : ℚ
  subtotal : ℚ
deriving DecidableEq

/-- A cart: the JSON document persisted per cart id. -/
structure Cart where
  total : ℚ
  tax : ℚ
  items : List LineItem
deriving DecidableEq

/-- A catalogue product, as resolved by getProduct. -/
structure Product where
  sku : String
  name : String
  price : ℚ
  instock : Int
deriving DecidableEq

/-- The raw value stored under a key: either a valid JSON encoding of a
cart, or bytes that do not decode (JSON.parse would throw on them). -/
inductive Stored where
  | enc (cart : Cart)
  | junk
deriving DecidableEq

/-- Value of a hexadecimal digit, for parseInt with a 0x prefix. -/
def hexVal (c : Char) : Option Nat :=
  if c.isDigit then some (c.toNat - 48)
  else if ('a' ≤ c ∧ c ≤ 'f') then some (c.toNat - 87)
  else if ('A' ≤ c ∧ c ≤ 'F') then some (c.toNat - 55)
  else none

/-- Longest run of decimal digits, accumulated left to right. -/
def takeDec : List Char → Nat → Nat
  | [], acc => acc
  | c :: cs, acc => if c.isDigit then takeDec cs (acc * 10 + (c.toNat - 48)) else acc

/-- Longest run of hexadecimal digits, accumulated left to right. -/
def takeHex : List Char → Nat → Nat
  | [], acc => acc
  | c :: cs, acc =>
    match hexVal c with
    | some v => takeHex cs (acc * 16 + v)
    | none => acc

/-- Decimal branch of parseInt: NaN (none) unless the input starts with a
decimal digit, else the value of the longest digit run. -/
def parseDecRun : List Char → Option Nat
  | [] => none
  | c :: cs => if c.isDigit then some (takeDec (c :: cs) 0) else none

/-- Hexadecimal branch of parseInt, applied after a 0x or 0X prefix. -/
def parseHexRun : List Char → Option Nat
  | [] => none
  | c :: cs =>
    match hexVal c with
    | some _ => some (takeHex (c :: cs) 0)
    | none => none

/-- Unsigned part of parseInt: a 0x or 0X prefix selects radix 16,
otherwise radix 10. -/
def parseUnsigned : List Char → Option Nat
  | '0' :: 'x' :: cs => parseHexRun cs
  | '0' :: 'X' :: cs => parseHexRun cs
  | cs => parseDecRun cs

/-- JavaScript parseInt as applied to the :qty path parameter: skip
leading whitespace, read an optional sign, then the longest digit run in
the selected radix; none models NaN. -/
def parseIntJS (s : String) : Option Int :=
  match s.data.dropWhile Char.isWhitespace with
  | '-' :: cs => (parseUnsigned cs).map (fun n => -(n : Int))
  | '+' :: cs => (parseUnsigned cs).map (fun n => (n : Int))
  | cs => (parseUnsigned cs).map (fun n => (n : Int))

/-- calcTotal from src/cart/server.js: fold the item subtotals. -/
def calcTotal (items : List LineItem) : ℚ :=
  items.foldl (fun total item => total + item.subtotal) 0

/-- calcTax from src/cart/server.js: 10 percent of the total. -/
def calcTax (total : ℚ) : ℚ :=
  total * (1 / 10)

/-- getProduct from src/cart/server.js: the dummy catalogue lookup, which
always resolves with a fixed in-stock product. -/
def getProduct (sku : String) : Product :=
  { sku := sku, name := "Product " ++ sku, price := 10, instock := 5 }

/-- mergeList from src/cart/server.js: at the first entry with a matching
sku, bump its qty and recompute its subtotal from its stored price;
otherwise push the new item at the end. -/
def mergeList : List LineItem → LineItem → Int → List LineItem
  | [], item, _ => [item]
  | li :: rest, item, qty =>
    if li.sku = item.sku then
      { li with qty := li.qty + qty, subtotal := ((li.qty + qty : Int) : ℚ) * li.price } :: rest
    else
      li :: mergeList rest item qty

/-- The Redis keyspace: cart id to stored raw value. -/
abbrev Store := String → Option Stored

/-- Redis SET of a single key. -/
def setStore (store : Store) (key : String) (value : Stored) : Store :=
  fun k => if k = key then some value else store k

/-- saveCart from src/cart/server.js: serialize the cart under the id. -/
def saveCart (store : Store) (id : String) (cart : Cart) : Store :=
  setStore store id (Stored.enc cart)

/-- The store holding no carts. -/
def emptyStore : Store := fun _ => none

/-- The fresh cart the add handler creates when the key is absent. -/
def emptyCart : Cart := { total := 0, tax := 0, items := [] }

/-- JSON.parse of a loaded value as done by the add handler: an absent key
gives the fresh empty cart, stored junk throws (none), and an encoded
cart parses back to itself. -/
def loadCart : Option Stored → Option Cart
  | none => some emptyCart
  | some (Stored.enc cart) => some cart
  | some Stored.junk => none

/-- The failure responses a handler can send instead of the cart. -/
inductive ErrKind where
  | badQty
  | productNotFound
  | outOfStock
  | cartNotFound
  | itemNotFound
  | shippingDataMissing
  | corruptData
deriving DecidableEq

/-- Outcome of a mutating handler: the JSON cart response, or an error
response. -/
inductive OpOut where
  | ok (cart : Cart)
  | err (e : ErrKind)
deriving DecidableEq

/-- The recompute step shared by the mutating handlers: cart.items takes
the new list, cart.total = calcTotal(items), cart.tax = calcTax(total). -/
def recompute (items : List LineItem) : Cart :=
  { total := calcTotal items, tax := calcTax (calcTotal items), items := items }

/-- The line item the add handler builds from the request parameters and
the resolved product. -/
def mkAddItem (sku : String) (product : Product) (qty : Int) : LineItem :=
  { qty := qty, sku := sku, name := product.name, price := product.price,
    subtotal := (qty : ℚ) * product.price }

/-- Body of the add handler after the catalogue and stock checks: load or
create the cart, merge the new line item, recompute total and tax, and
persist as the last step. -/
def addLoadMerge (store : Store) (id sku : String) (product : Product) (qty : Int) :
    OpOut × Store :=
  match loadCart (store id) with
  | none => (OpOut.err ErrKind.corruptData, store)
  | some cart =>
    let cart' := recompute (mergeList cart.items (mkAddItem sku product qty) qty)
    (OpOut.ok cart', saveCart store id cart')

/-- The add handler after quantity validation, parameterized by the value
the getProduct promise resolved with: a falsy product or a zero stock
level short-circuits before any store access. -/
def addItemWith (store : Store) (id sku : String) (product? : Option Product)
    (qty : Int) : OpOut × Store :=
  match product? with
  | none => (OpOut.err ErrKind.productNotFound, store)
  | some product =>
    if product.instock = 0 then (OpOut.err ErrKind.outOfStock, store)
    else addLoadMerge store id sku product qty

/-- GET /add/:id/:sku/:qty from src/cart/server.js. -/
def addItem (store : Store) (id sku qtyStr : String) : OpOut × Store :=
  match parseIntJS qtyStr with
  | none => (OpOut.err ErrKind.badQty, store)
  | some qty =>
    if qty < 1 then (OpOut.err ErrKind.badQty, store)
    else addItemWith store id sku (some (getProduct sku)) qty

/-- The scan-then-splice-or-assign step of the update handler: locate the
first entry with the sku (the idx loop); none models idx reaching the
length; at qty zero the entry is spliced out, otherwise its qty is set
and its subtotal recomputed from its stored price. -/
def updateList : List LineItem → String → Int → Option (List LineItem)
  | [], _, _ => none
  | li :: rest, sku, qty =>
    if li.sku = sku then
      some (if qty = 0 then rest
            else { li with qty := qty, subtotal := li.price * (qty : ℚ) } :: rest)
    else
      (updateList rest sku qty).map (fun list => li :: list)

/-- The update handler after quantity parsing. -/
def updateItemQ (store : Store) (id sku : String) (qty : Int) : OpOut × Store :=
  if qty < 0 then (OpOut.err ErrKind.badQty, store)
  else
    match store id with
    | none => (OpOut.err ErrKind.cartNotFound, store)
    | some Stored.junk => (OpOut.err ErrKind.corruptData, store)
    | some (Stored.enc cart) =>
      match updateList cart.items sku qty with
      | none => (OpOut.err ErrKind.itemNotFound, store)
      | some list => (OpOut.ok (recompute list), saveCart store id (recompute list))

/-- GET /update/:id/:sku/:qty from src/cart/server.js. -/
def updateItem (store : Store) (id sku qtyStr : String) : OpOut × Store :=
  match parseIntJS qtyStr with
  | none => (OpOut.err ErrKind.badQty, store)
  | some qty => updateItemQ store id sku qty

/-- POST body of the shipping route; an absent field models undefined. -/
structure ShippingBody where
  distance : Option ℚ
  cost : Option ℚ
  location : Option String
deriving DecidableEq

/-- The SHIP line item the shipping handler builds from the body. -/
def shipItem (cost : ℚ) (loc : String) : LineItem :=
  { qty := 1, sku := "SHIP", name := "shipping to " ++ loc, price := cost,
    subtotal := cost }

/-- The scan-then-assign-or-push step of the shipping handler: at the
first entry with sku SHIP only the subtotal is overwritten with the new
cost; when no such entry exists the new SHIP item is pushed at the end. -/
def shipUpdate : List LineItem → LineItem → List LineItem
  | [], item => [item]
  | li :: rest, item =>
    if li.sku = item.sku then { li with subtotal := item.price } :: rest
    else li :: shipUpdate rest item

/-- POST /shipping/:id from src/cart/server.js. -/
def addShipping (store : Store) (id : String) (shipping : ShippingBody) :
    OpOut × Store :=
  match shipping.distance, shipping.cost, shipping.location with
  | some _, some cost, some loc =>
    match store id with
    | none => (OpOut.err ErrKind.cartNotFound, store)
    | some Stored.junk => (OpOut.err ErrKind.corruptData, store)
    | some (Stored.enc cart) =>
      let cart' := recompute (shipUpdate cart.items (shipItem cost loc))
      (OpOut.ok cart', saveCart store id cart')
  | _, _, _ => (OpOut.err ErrKind.shippingDataMissing, store)

/-- GET /rename/:from/:to from src/cart/server.js: load the source cart
and save it under the destination key; the source key is left untouched. -/
def renameCart (store : Store) (fromId toId : String) : OpOut × Store :=
  match store fromId with
  | none => (OpOut.err ErrKind.cartNotFound, store)
  | some Stored.junk => (OpOut.err ErrKind.corruptData, store)
  | some (Stored.enc cart) => (OpOut.ok cart, saveCart store toId cart)

/-- Response of GET /cart/:id: 404, or the stored bytes sent verbatim. -/
inductive GetResult where
  | notFound
  | ok (bytes : Stored)
deriving DecidableEq

/-- GET /cart/:id from src/cart/server.js: send the raw stored value
without decoding it. -/
def getCart (store : Store) (id : String) : GetResult × Store :=
  match store id with
  | none => (GetResult.notFound, store)
  | some bytes => (GetResult.ok bytes, store)

/-- One mutating request against the service. -/
inductive Op where
  | add (id sku qtyStr : String)
  | update (id sku qtyStr : String)
  | shipping (id : String) (body : ShippingBody)

/-- The store after one request (the response is dropped). -/
def applyOp (store : Store) : Op → Store
  | Op.add id sku qtyStr => (addItem store id sku qtyStr).2
  | Op.update id sku qtyStr => (updateItem store id sku qtyStr).2
  | Op.shipping id body => (addShipping store id body).2

/-- The store after a sequence of requests. -/
def runOps (store : Store) : List Op → Store
  | [] => store
  | op :: rest => runOps (applyOp store op) rest

/-- A sequence of add requests (sku, resolved product, parsed qty) against
one cart id, as a store transformer. -/
def runAdds (store : Store) (id : String) : List (String × Product × Int) → Store
  | [] => store
  | (sku, p, q) :: rest => runAdds ((addItemWith store id sku (some p) q).2) id rest

/-- The item list after a sequence of merges, one per add request. -/
def itemsAfter : List LineItem → List (String × Product × Int) → List LineItem
  | l, [] => l
  | l, (sku, p, q) :: rest => itemsAfter (mergeList l (mkAddItem sku p q) q) rest

/-- The cart value after a sequence of successful adds. -/
def cartAfter : Cart → List (String × Product × Int) → Cart
  | c, [] => c
  | c, (sku, p, q) :: rest => cartAfter (recompute (mergeList c.items (mkAddItem sku p q) q)) rest

/-- Removal of the first entry with the given sku, as done by the splice
in the update handler at qty zero. -/
def eraseSku : List LineItem → String → List LineItem
  | [], _ => []
  | li :: rest, sku => if li.sku = sku then rest else li :: eraseSku rest sku

/-- Total requested quantity of a sequence of add requests. -/
def sumQ (adds : List (String × Product × Int)) : Int :=
  (adds.map (fun a => a.2.2)).sum

lemma calcTotal_go (l : List LineItem) (a : ℚ) :
    l.foldl (fun total item => total + item.subtotal) a = a + (l.map LineItem.subtotal).sum := by
  induction l generalizing a with
  | nil => simp
  | cons li rest ih => simp [List.foldl_cons, ih]; ring

lemma calcTotal_eq_sum (l : List LineItem) :
    calcTotal l = (l.map LineItem.subtotal).sum := by
  unfold calcTotal
  rw [calcTotal_go]
  ring

lemma setStore_self (store : Store) (key : String) (v : Stored) :
    setStore store key v key = some v := by
  simp [setStore]

lemma setStore_other (store : Store) (key k : String) (v : Stored) (h : k ≠ key) :
    setStore store key v k = store k := by
  simp [setStore, h]

lemma addLoadMerge_shape (store : Store) (id sku : String) (p : Product) (q : Int) :
    addLoadMerge store id sku p q = (OpOut.err ErrKind.corruptData, store) ∨
    ∃ list, addLoadMerge store id sku p q =
      (OpOut.ok (recompute list), saveCart store id (recompute list)) := by
  unfold addLoadMerge
  cases loadCart (store id) with
  | none => exact Or.inl rfl
  | some cart => exact Or.inr ⟨_, rfl⟩

lemma addItemWith_shape (store : Store) (id sku : String) (p? : Option Product) (q : Int) :
    (∃ e, addItemWith store id sku p? q = (OpOut.err e, store)) ∨
    ∃ list, addItemWith store id sku p? q =
      (OpOut.ok (recompute list), saveCart store id (recompute list)) := by
  unfold addItemWith
  cases p? with
  | none => exact Or.inl ⟨_, rfl⟩
  | some p =>
    by_cases hs : p.instock = 0
    · simp only [hs, if_true]
      exact Or.inl ⟨_, rfl⟩
    · simp only [hs, if_false]
      rcases addLoadMerge_shape store id sku p q with h | ⟨list, h⟩
      · exact Or.inl ⟨_, h⟩
      · exact Or.inr ⟨list, h⟩

lemma addItem_shape (store : Store) (id sku qtyStr : String) :
    (∃ e, addItem store id sku qtyStr = (OpOut.err e, store)) ∨
    ∃ list, addItem store id sku qtyStr =
      (OpOut.ok (recompute list), saveCart store id (recompute list)) := by
  unfold addItem
  cases parseIntJS qtyStr with
  | none => exact Or.inl ⟨_, rfl⟩
  | some q =>
    by_cases hq : q < 1
    · simp only [hq, if_true]
      exact Or.inl ⟨_, rfl⟩
    · simp only [hq, if_false]
      exact addItemWith_shape store id sku (some (getProduct sku)) q

lemma updateItemQ_shape (store : Store) (id sku : String) (q : Int) :
    (∃ e, updateItemQ store id sku q = (OpOut.err e, store)) ∨
    ∃ list, updateItemQ store id sku q =
      (OpOut.ok (recompute list), saveCart store id (recompute list)) := by
  unfold updateItemQ
  split
  · exact Or.inl ⟨_, rfl⟩
  · split
    · exact Or.inl ⟨_, rfl⟩
    · exact Or.inl ⟨_, rfl⟩
    · split
      · exact Or.inl ⟨_, rfl⟩
      · exact Or.inr ⟨_, rfl⟩

lemma updateItem_shape (store : Store) (id sku qtyStr : String) :
    (∃ e, updateItem store id sku qtyStr = (OpOut.err e, store)) ∨
    ∃ list, updateItem store id sku qtyStr =
      (OpOut.ok (recompute list), saveCart store id (recompute list)) := by
  unfold updateItem
  cases parseIntJS qtyStr with
  | none => exact Or.inl ⟨_, rfl⟩
  | some q => exact updateItemQ_shape store id sku q

lemma addShipping_shape (store : Store) (id : String) (body : ShippingBody) :
    (∃ e, addShipping store id body = (OpOut.err e, store)) ∨
    ∃ list, addShipping store id body =
      (OpOut.ok (recompute list), saveCart store id (recompute list)) := by
  obtain ⟨d?, c?, l?⟩ := body
  unfold addShipping
  cases d? with
  | none => exact Or.inl ⟨_, rfl⟩
  | some d =>
    cases c? with
    | none => exact Or.inl ⟨_, rfl⟩
    | some c =>
      cases l? with
      | none => exact Or.inl ⟨_, rfl⟩
      | some loc =>
        cases store id with
        | none => exact Or.inl ⟨_, rfl⟩
        | some bytes =>
          cases bytes with
          | junk => exact Or.inl ⟨_, rfl⟩
          | enc cart => exact Or.inr ⟨_, rfl⟩

lemma renameCart_shape (store : Store) (fromId toId : String) :
    (∃ e, renameCart store fromId toId = (OpOut.err e, store)) ∨
    ∃ cart, store fromId = some (Stored.enc cart) ∧
      renameCart store fromId toId = (OpOut.ok cart, saveCart store toId cart) := by
  unfold renameCart
  cases h : store fromId with
  | none => exact Or.inl ⟨_, rfl⟩
  | some bytes =>
    cases bytes with
    | junk => exact Or.inl ⟨_, rfl⟩
    | enc cart => exact Or.inr ⟨cart, rfl, rfl⟩

/-- The derived-field invariant a recomputed cart always satisfies. -/
lemma recompute_total_tax (list : List LineItem) :
    (recompute list).total = ((recompute list).items.map LineItem.subtotal).sum ∧
    (recompute list).tax = (recompute list).total * (1 / 10) := by
  constructor
  · simpa [recompute] using calcTotal_eq_sum list
  · rfl

lemma saveRecompute_inv (store : Store) (sid : String) (list : List LineItem)
    (h : ∀ id c, store id = some (Stored.enc c) →
      c.total = (c.items.map LineItem.subtotal).sum ∧ c.tax = c.total * (1 / 10)) :
    ∀ id c, saveCart store sid (recompute list) id = some (Stored.enc c) →
      c.total = (c.items.map LineItem.subtotal).sum ∧ c.tax = c.total * (1 / 10) := by
  intro id c hc
  by_cases hid : id = sid
  · subst hid
    rw [saveCart, setStore_self] at hc
    obtain rfl : recompute list = c := by
      cases hc
      rfl
    exact recompute_total_tax list
  · rw [saveCart, setStore_other _ _ _ _ hid] at hc
    exact h id c hc

lemma applyOp_inv (store : Store) (op : Op)
    (h : ∀ id c, store id = some (Stored.enc c) →
      c.total = (c.items.map LineItem.subtotal).sum ∧ c.tax = c.total * (1 / 10)) :
    ∀ id c, applyOp store op id = some (Stored.enc c) →
      c.total = (c.items.map LineItem.subtotal).sum ∧ c.tax = c.total * (1 / 10) := by
  cases op with
  | add oid sku qtyStr =>
    rcases addItem_shape store oid sku qtyStr with ⟨e, heq⟩ | ⟨list, heq⟩
    · simpa [applyOp, heq] using h
    · simpa [applyOp, heq] using saveRecompute_inv store oid list h
  | update oid sku qtyStr =>
    rcases updateItem_shape store oid sku qtyStr with ⟨e, heq⟩ | ⟨list, heq⟩
    · simpa [applyOp, heq] using h
    · simpa [applyOp, heq] using saveRecompute_inv store oid list h
  | shipping oid body =>
    rcases addShipping_shape store oid body with ⟨e, heq⟩ | ⟨list, heq⟩
    · simpa [applyOp, heq] using h
    · simpa [applyOp, heq] using saveRecompute_inv store oid list h

lemma runOps_inv (ops : List Op) (store : Store)
    (h : ∀ id c, store id = some (Stored.enc c) →
      c.total = (c.items.map LineItem.subtotal).sum ∧ c.tax = c.total * (1 / 10)) :
    ∀ id c, runOps store ops id = some (Stored.enc c) →
      c.total = (c.items.map LineItem.subtotal).sum ∧ c.tax = c.total * (1 / 10) := by
  induction ops generalizing store with
  | nil => exact h
  | cons op rest ih => exact ih (applyOp store op) (applyOp_inv store op h)

/-- C1: every cart persisted by any sequence of add, update and shipping
requests, starting from the empty store, has its total equal to the sum of
the subtotals of its items (a SHIP line produced by the shipping handler is
an ordinary entry of items, so its subtotal is part of that sum) and its
tax equal to total times one tenth. -/
theorem mutation_total_tax_invariant (ops : List Op) (id : String) (c : Cart)
    (h : runOps emptyStore ops id = some (Stored.enc c)) :
    c.total = (c.items.map LineItem.subtotal).sum ∧ c.tax = c.total * (1 / 10) :=
  runOps_inv ops emptyStore (by intro id c hc; simp [emptyStore] at hc) id c h

/-- The cart produced by adding two units of sku X to a fresh cart. -/
def cartX20 : Cart :=
  { total := 20, tax := 2,
    items := [{ sku := "X", name := "Product X", qty := 2, price := 10, subtotal := 20 }] }

/-- Witness for C1 at a concrete request sequence. -/
theorem mutation_total_tax_invariant_witness :
    runOps emptyStore [Op.add ("c1") ("X") ("2")] ("c1") = some (Stored.enc cartX20) ∧
    (cartX20.total = (cartX20.items.map LineItem.subtotal).sum ∧
      cartX20.tax = cartX20.total * (1 / 10)) :=
  ⟨by with_unfolding_all decide,
    mutation_total_tax_invariant [Op.add ("c1") ("X") ("2")] ("c1") cartX20
      (by with_unfolding_all decide)⟩

/-- A keyspace holding a prior cart for sku X under key c1. -/
def storeA3 : Store := saveCart emptyStore ("c1") cartX20

/-- C3 counterexample: after renameCart from c1 to c2 the source key c1
still holds the cart, so a getCart on the source succeeds with the full
cart instead of yielding not found: the code copies without deleting. -/
theorem renameCart_source_not_deleted :
    (renameCart storeA3 ("c1") ("c2")).1 = OpOut.ok cartX20 ∧
    (getCart (renameCart storeA3 ("c1") ("c2")).2 ("c2")).1 = GetResult.ok (Stored.enc cartX20) ∧
    (getCart (renameCart storeA3 ("c1") ("c2")).2 ("c1")).1 = GetResult.ok (Stored.enc cartX20) ∧
    (getCart (renameCart storeA3 ("c1") ("c2")).2 ("c1")).1 ≠ GetResult.notFound := by
  with_unfolding_all decide

/-- C3 (amended): renameCart is a copy, not a move: after a successful
rename the destination key holds the source cart verbatim (overwriting any
previous value), every other key is untouched, and in particular the
source key still holds the cart, so getCart on the source still succeeds. -/
theorem renameCart_is_copy (store : Store) (fromId toId : String) (cart : Cart)
    (h : store fromId = some (Stored.enc cart)) :
    renameCart store fromId toId = (OpOut.ok cart, saveCart store toId cart) ∧
    (renameCart store fromId toId).2 toId = some (Stored.enc cart) ∧
    (renameCart store fromId toId).2 fromId = some (Stored.enc cart) ∧
    (getCart (renameCart store fromId toId).2 fromId).1 = GetResult.ok (Stored.enc cart) ∧
    ∀ k, k ≠ toId → (renameCart store fromId toId).2 k = store k := by
  have hr : renameCart store fromId toId = (OpOut.ok cart, saveCart store toId cart) := by
    unfold renameCart
    rw [h]
  have hfrom : (renameCart store fromId toId).2 fromId = some (Stored.enc cart) := by
    rw [hr]
    by_cases hk : fromId = toId
    · simp [saveCart, setStore, hk]
    · simp [saveCart, setStore, hk, h]
  refine ⟨hr, ?_, hfrom, ?_, ?_⟩
  · rw [hr]
    simp [saveCart, setStore]
  · simp [getCart, hfrom]
  · intro k hk
    rw [hr]
    simp [saveCart, setStore, hk]

/-- Witness for the amended C3 at a concrete store. -/
theorem renameCart_is_copy_witness :
    storeA3 ("c1") = some (Stored.enc cartX20) ∧
    (renameCart storeA3 ("c1") ("c2") =
        (OpOut.ok cartX20, saveCart storeA3 ("c2") cartX20) ∧
      (renameCart storeA3 ("c1") ("c2")).2 ("c2") = some (Stored.enc cartX20) ∧
      (renameCart storeA3 ("c1") ("c2")).2 ("c1") = some (Stored.enc cartX20) ∧
      (getCart (renameCart storeA3 ("c1") ("c2")).2 ("c1")).1 =
        GetResult.ok (Stored.enc cartX20) ∧
      ∀ k, k ≠ ("c2") → (renameCart storeA3 ("c1") ("c2")).2 k = storeA3 k) :=
  ⟨by with_unfolding_all decide,
    renameCart_is_copy storeA3 ("c1") ("c2") cartX20 (by with_unfolding_all decide)⟩

/-- A keyspace holding undecodable bytes under key c1. -/
def junkStore1 : Store := fun k => if k = ("c1") then some Stored.junk else none

/-- C6 counterexample: on stored bytes that do not decode as a cart (the
JSON.parse model rejects them), getCart answers with a success carrying
the raw bytes instead of failing with a corrupt-data error. -/
theorem getCart_returns_undecodable :
    loadCart (some Stored.junk) = none ∧
    (getCart junkStore1 ("c1")).1 = GetResult.ok Stored.junk ∧
    (getCart junkStore1 ("c1")).1 ≠ GetResult.notFound := by
  decide

/-- C6 (amended): getCart has no side effects and fails with not-found
exactly when no value is stored under the id, but it performs no decoding:
whatever bytes are stored, decodable or not, are returned verbatim as a
success. -/
theorem getCart_raw_passthrough (store : Store) (id : String) :
    (getCart store id).2 = store ∧
    ((getCart store id).1 = GetResult.notFound ↔ store id = none) ∧
    ∀ b, store id = some b → (getCart store id).1 = GetResult.ok b := by
  unfold getCart
  cases h : store id with
  | none => simp
  | some bytes => simp

/-- Witness for the amended C6 at a concrete store with undecodable bytes. -/
theorem getCart_raw_passthrough_witness :
    junkStore1 ("c1") = some Stored.junk ∧
    (getCart junkStore1 ("c1")).1 = GetResult.ok Stored.junk :=
  ⟨by decide, (getCart_raw_passthrough junkStore1 ("c1")).2.2 Stored.junk (by decide)⟩

lemma shape_err_ok {r : OpOut × Store} {store : Store} {sid : String}
    (hs : (∃ e, r = (OpOut.err e, store)) ∨
      ∃ list, r = (OpOut.ok (recompute list), saveCart store sid (recompute list))) :
    (∀ e, r.1 = OpOut.err e → r.2 = store) ∧
    (∀ c, r.1 = OpOut.ok c → r.2 = saveCart store sid c) := by
  constructor
  · intro e he
    rcases hs with ⟨e', heq⟩ | ⟨list, heq⟩
    · rw [heq]
    · rw [heq] at he
      simp at he
  · intro c hc
    rcases hs with ⟨e', heq⟩ | ⟨list, heq⟩
    · rw [heq] at hc
      simp at hc
    · rw [heq] at hc ⊢
      simp only at hc
      obtain rfl : recompute list = c := by
        cases hc
        rfl
      rfl

/-- C7: every mutating handler persists as its very last step: whenever a
request fails, for any reason, the keyspace is left exactly as it was, and
a success writes exactly the returned cart under the target key; in
particular an add with a nonpositive quantity, or against a product with a
zero stock level, writes nothing. -/
theorem mutations_persist_last (store : Store) (id sku qtyStr fromId toId : String)
    (body : ShippingBody) :
    ((∀ e, (addItem store id sku qtyStr).1 = OpOut.err e →
        (addItem store id sku qtyStr).2 = store) ∧
      (∀ c, (addItem store id sku qtyStr).1 = OpOut.ok c →
        (addItem store id sku qtyStr).2 = saveCart store id c)) ∧
    ((∀ e, (updateItem store id sku qtyStr).1 = OpOut.err e →
        (updateItem store id sku qtyStr).2 = store) ∧
      (∀ c, (updateItem store id sku qtyStr).1 = OpOut.ok c →
        (updateItem store id sku qtyStr).2 = saveCart store id c)) ∧
    ((∀ e, (addShipping store id body).1 = OpOut.err e →
        (addShipping store id body).2 = store) ∧
      (∀ c, (addShipping store id body).1 = OpOut.ok c →
        (addShipping store id body).2 = saveCart store id c)) ∧
    ((∀ e, (renameCart store fromId toId).1 = OpOut.err e →
        (renameCart store fromId toId).2 = store) ∧
      (∀ c, (renameCart store fromId toId).1 = OpOut.ok c →
        (renameCart store fromId toId).2 = saveCart store toId c)) ∧
    addItem store id sku ("0") = (OpOut.err ErrKind.badQty, store) ∧
    addItem store id sku ("-3") = (OpOut.err ErrKind.badQty, store) ∧
    ∀ p q, p.instock = 0 →
      addItemWith store id sku (some p) q = (OpOut.err ErrKind.outOfStock, store) := by
  refine ⟨shape_err_ok (addItem_shape store id sku qtyStr),
    shape_err_ok (updateItem_shape store id sku qtyStr),
    shape_err_ok (addShipping_shape store id body), ?_, ?_, ?_, ?_⟩
  · rcases renameCart_shape store fromId toId with ⟨e, heq⟩ | ⟨cart, hsrc, heq⟩
    · constructor
      · intro e' he
        rw [heq]
      · intro c hc
        rw [heq] at hc
        simp at hc
    · constructor
      · intro e' he
        rw [heq] at he
        simp at he
      · intro c hc
        rw [heq] at hc ⊢
        simp only at hc
        obtain rfl : cart = c := by
          cases hc
          rfl
        rfl
  · have h0 : parseIntJS ("0") = some 0 := by decide
    simp [addItem, h0]
  · have h3 : parseIntJS ("-3") = some (-3) := by decide
    simp [addItem, h3]
  · intro p q hp
    simp [addItemWith, hp]

/-- Witness for C7 at a concrete failing request. -/
theorem mutations_persist_last_witness :
    (addItem emptyStore ("c1") ("X") ("0")).1 = OpOut.err ErrKind.badQty ∧
    (addItem emptyStore ("c1") ("X") ("0")).2 = emptyStore :=
  ⟨by decide,
    (mutations_persist_last emptyStore ("c1") ("X") ("0") ("a") ("b")
      { distance := none, cost := none, location := none }).1.1
      ErrKind.badQty (by decide)⟩

lemma addItemWith_ne_badQty (store : Store) (id sku : String) (p? : Option Product) (q : Int) :
    (addItemWith store id sku p? q).1 ≠ OpOut.err ErrKind.badQty := by
  unfold addItemWith
  cases p? with
  | none => simp
  | some p =>
    by_cases hs : p.instock = 0
    · simp [hs]
    · simp only [hs, if_false]
      cases h : loadCart (store id) with
      | none => simp [addLoadMerge, h]
      | some cart => simp [addLoadMerge, h]

/-- C8: the quantity check of the add route accepts exactly the path
strings whose parseInt value is at least one: a fractional quantity such
as 3.9 is silently truncated to 3 and a trailing-garbage string such as
2abc is accepted as 2, while strings with no leading numeric prefix, or a
prefix below one, are rejected as a bad quantity. -/
theorem addItem_qty_validation :
    (∀ (store : Store) (id sku qtyStr : String),
      (addItem store id sku qtyStr).1 ≠ OpOut.err ErrKind.badQty ↔
        ∃ q, parseIntJS qtyStr = some q ∧ 1 ≤ q) ∧
    parseIntJS ("3.9") = some 3 ∧
    parseIntJS ("2abc") = some 2 ∧
    parseIntJS ("abc") = none ∧
    parseIntJS ("0.9") = some 0 ∧
    ∀ (store : Store) (id sku : String),
      addItem store id sku ("3.9") = addItem store id sku ("3") ∧
      addItem store id sku ("2abc") = addItem store id sku ("2") ∧
      (addItem store id sku ("0.9")).1 = OpOut.err ErrKind.badQty ∧
      (addItem store id sku ("abc")).1 = OpOut.err ErrKind.badQty := by
  refine ⟨?_, by decide, by decide, by decide, by decide, ?_⟩
  · intro store id sku qtyStr
    constructor
    · intro hne
      cases hp : parseIntJS qtyStr with
      | none =>
        exfalso
        apply hne
        simp [addItem, hp]
      | some q =>
        by_cases hq : q < 1
        · exfalso
          apply hne
          simp [addItem, hp, hq]
        · exact ⟨q, rfl, by omega⟩
    · rintro ⟨q, hp, h1⟩
      have hq : ¬ q < 1 := by omega
      simp only [addItem, hp, hq, if_false]
      exact addItemWith_ne_badQty store id sku (some (getProduct sku)) q
  · intro store id sku
    refine ⟨?_, ?_, ?_, ?_⟩
    · simp only [addItem, (by decide : parseIntJS ("3.9") = some 3),
        (by decide : parseIntJS ("3") = some 3)]
    · simp only [addItem, (by decide : parseIntJS ("2abc") = some 2),
        (by decide : parseIntJS ("2") = some 2)]
    · simp [addItem, (by decide : parseIntJS ("0.9") = some 0)]
    · simp [addItem, (by decide : parseIntJS ("abc") = none)]

/-- C10: getProduct is the fixed dummy lookup, always in stock, so a
quantity-valid add request can never fail on the product or stock checks
and always reaches the cart-load-and-merge step. -/
theorem getProduct_dummy_unreachable (sku : String) :
    getProduct sku = { sku := sku, name := "Product " ++ sku, price := 10, instock := 5 } ∧
    (getProduct sku).instock ≠ 0 ∧
    (∀ (store : Store) (id qtyStr : String) (q : Int),
      parseIntJS qtyStr = some q → 1 ≤ q →
      addItem store id sku qtyStr = addLoadMerge store id sku (getProduct sku) q) ∧
    ∀ (store : Store) (id qtyStr : String),
      (addItem store id sku qtyStr).1 ≠ OpOut.err ErrKind.productNotFound ∧
      (addItem store id sku qtyStr).1 ≠ OpOut.err ErrKind.outOfStock := by
  have hstock : (getProduct sku).instock = 5 := rfl
  refine ⟨rfl, by simp [hstock], ?_, ?_⟩
  · intro store id qtyStr q hp h1
    have hq : ¬ q < 1 := by omega
    simp only [addItem, hp, hq, if_false, addItemWith, hstock]
    simp
  · intro store id qtyStr
    cases hp : parseIntJS qtyStr with
    | none =>
      simp [addItem, hp]
    | some q =>
      by_cases hq : q < 1
      · simp [addItem, hp, hq]
      · simp only [addItem, hp, hq, if_false, addItemWith, hstock]
        rcases addLoadMerge_shape store id sku (getProduct sku) q with heq | ⟨list, heq⟩ <;>
          simp [heq]

/-- Witness for C10 at a concrete quantity-valid add request. -/
theorem getProduct_dummy_unreachable_witness :
    parseIntJS ("2") = some 2 ∧ (1 : Int) ≤ 2 ∧
    addItem emptyStore ("c1") ("X") ("2") =
      addLoadMerge emptyStore ("c1") ("X") (getProduct ("X")) 2 :=
  ⟨by decide, by decide,
    (getProduct_dummy_unreachable ("X")).2.2.1 emptyStore ("c1") ("2") 2
      (by decide) (by decide)⟩

lemma mergeList_not_found (l : List LineItem) (item : LineItem) (q : Int)
    (h : ∀ li ∈ l, li.sku ≠ item.sku) :
    mergeList l item q = l ++ [item] := by
  induction l with
  | nil => rfl
  | cons li rest ih =>
    have hli : ¬ li.sku = item.sku := h li (by simp)
    simp only [mergeList, hli, if_false, List.cons_append, List.cons.injEq, true_and]
    exact ih fun x hx => h x (by simp [hx])

lemma mergeList_found (l1 l2 : List LineItem) (x item : LineItem) (q : Int)
    (h1 : ∀ li ∈ l1, li.sku ≠ item.sku) (hx : x.sku = item.sku) :
    mergeList (l1 ++ x :: l2) item q =
      l1 ++ { x with qty := x.qty + q, subtotal := ((x.qty + q : Int) : ℚ) * x.price } :: l2 := by
  induction l1 with
  | nil => simp [mergeList, hx]
  | cons li rest ih =>
    have hli : ¬ li.sku = item.sku := h1 li (by simp)
    simp only [List.cons_append, mergeList, hli, if_false, List.cons.injEq, true_and]
    exact ih fun y hy => h1 y (by simp [hy])

lemma shipUpdate_not_found (l : List LineItem) (item : LineItem)
    (h : ∀ li ∈ l, li.sku ≠ item.sku) :
    shipUpdate l item = l ++ [item] := by
  induction l with
  | nil => rfl
  | cons li rest ih =>
    have hli : ¬ li.sku = item.sku := h li (by simp)
    simp only [shipUpdate, hli, if_false, List.cons_append, List.cons.injEq, true_and]
    exact ih fun x hx => h x (by simp [hx])

lemma shipUpdate_found (l1 l2 : List LineItem) (x item : LineItem)
    (h1 : ∀ li ∈ l1, li.sku ≠ item.sku) (hx : x.sku = item.sku) :
    shipUpdate (l1 ++ x :: l2) item = l1 ++ { x with subtotal := item.price } :: l2 := by
  induction l1 with
  | nil => simp [shipUpdate, hx]
  | cons li rest ih =>
    have hli : ¬ li.sku = item.sku := h1 li (by simp)
    simp only [List.cons_append, shipUpdate, hli, if_false, List.cons.injEq, true_and]
    exact ih fun y hy => h1 y (by simp [hy])

lemma updateList_found (l1 l2 : List LineItem) (x : LineItem) (sku : String) (q : Int)
    (h1 : ∀ li ∈ l1, li.sku ≠ sku) (hx : x.sku = sku) :
    updateList (l1 ++ x :: l2) sku q =
      some (if q = 0 then l1 ++ l2
            else l1 ++ { x with qty := q, subtotal := x.price * (q : ℚ) } :: l2) := by
  induction l1 with
  | nil =>
    by_cases hq : q = 0 <;> simp [updateList, hx, hq]
  | cons li rest ih =>
    have hli : ¬ li.sku = sku := h1 li (by simp)
    simp only [List.cons_append, updateList, hli, if_false, List.append_eq]
    rw [ih fun y hy => h1 y (by simp [hy])]
    by_cases hq : q = 0 <;> simp [hq]

lemma loadCart_save (store : Store) (id : String) (c : Cart) :
    loadCart (saveCart store id c id) = some c := by
  rw [saveCart, setStore_self]
  rfl

lemma saveCart_idem (store : Store) (id : String) (c : Cart) :
    saveCart (saveCart store id c) id c = saveCart store id c := by
  funext k
  by_cases h : k = id <;> simp [saveCart, setStore, h]

lemma addShipping_enc (store : Store) (id : String) (d k : ℚ) (loc : String) (cart : Cart)
    (h : store id = some (Stored.enc cart)) :
    addShipping store id { distance := some d, cost := some k, location := some loc } =
      (OpOut.ok (recompute (shipUpdate cart.items (shipItem k loc))),
        saveCart store id (recompute (shipUpdate cart.items (shipItem k loc)))) := by
  unfold addShipping
  rw [h]

lemma updateItemQ_enc (store : Store) (id sku : String) (q : Int) (cart : Cart)
    (h : store id = some (Stored.enc cart)) (hq : ¬ q < 0) :
    updateItemQ store id sku q =
      match updateList cart.items sku q with
      | none => (OpOut.err ErrKind.itemNotFound, store)
      | some list => (OpOut.ok (recompute list), saveCart store id (recompute list)) := by
  unfold updateItemQ
  rw [if_neg hq, h]

lemma addLoadMerge_some (store : Store) (id sku : String) (p : Product) (q : Int)
    (cart : Cart) (h : loadCart (store id) = some cart) :
    addLoadMerge store id sku p q =
      (OpOut.ok (recompute (mergeList cart.items (mkAddItem sku p q) q)),
        saveCart store id (recompute (mergeList cart.items (mkAddItem sku p q) q))) := by
  unfold addLoadMerge
  rw [h]

lemma addItemWith_stock (store : Store) (id sku : String) (p : Product) (q : Int)
    (hs : ¬ p.instock = 0) :
    addItemWith store id sku (some p) q = addLoadMerge store id sku p q := by
  show (if p.instock = 0 then (OpOut.err ErrKind.outOfStock, store)
    else addLoadMerge store id sku p q) = addLoadMerge store id sku p q
  rw [if_neg hs]

lemma addItem_parsed (store : Store) (id sku qtyStr : String) (q : Int)
    (hp : parseIntJS qtyStr = some q) (h1 : ¬ q < 1) :
    addItem store id sku qtyStr = addLoadMerge store id sku (getProduct sku) q := by
  unfold addItem
  rw [hp]
  show (if q < 1 then (OpOut.err ErrKind.badQty, store)
    else addItemWith store id sku (some (getProduct sku)) q) = _
  rw [if_neg h1]
  exact addItemWith_stock store id sku (getProduct sku) q (by norm_num [getProduct])

/-- The stale SHIP line outcome of calling the shipping route twice on a
cart whose SHIP line was attached earlier with a different cost. -/
def cartC5res : Cart :=
  { total := 5, tax := 1 / 2,
    items := [{ sku := "SHIP", name := "shipping to Y", qty := 1, price := 7, subtotal := 5 }] }

/-- A keyspace holding a cart whose SHIP line was attached with cost 7. -/
def storeC5 : Store :=
  saveCart emptyStore ("c1")
    { total := 7, tax := 7 / 10,
      items := [{ sku := "SHIP", name := "shipping to Y", qty := 1, price := 7, subtotal := 7 }] }

/-- The shipping body used twice in the C5 scenario. -/
def bodyC5 : ShippingBody := { distance := some 10, cost := some 5, location := some ("X") }

/-- C5 counterexample: calling addShipping twice with distance 10, cost 5,
location X on a cart whose SHIP line was attached earlier with cost 7 and
location Y yields a SHIP line with subtotal 5 but the old name and price
kept, so neither the additive outcome (a subtotal of 10) nor a wholly
replaced shipping record occurs. -/
theorem addShipping_twice_neither_outcome :
    (addShipping (addShipping storeC5 ("c1") bodyC5).2 ("c1") bodyC5).1 =
      OpOut.ok cartC5res ∧
    (∀ li ∈ cartC5res.items, li.subtotal ≠ 10) ∧
    shipItem 5 ("X") ∉ cartC5res.items := by
  with_unfolding_all decide

/-- C5 (amended): repeated shipping is neither additive nor a whole
replacement. On a cart with no SHIP line, addShipping pushes the SHIP item
built from the body, and an identical second call is a no-op returning the
same cart and store, which coincides with the replace outcome at cost 5.
On a cart that already has a SHIP line, addShipping overwrites only that
line's subtotal with the new cost, keeping its qty, name and price; the
request's distance is never stored anywhere. -/
theorem addShipping_twice_replace_cost (store : Store) (id : String) (c : Cart)
    (d k : ℚ) (loc : String) (hload : store id = some (Stored.enc c)) :
    ((∀ li ∈ c.items, li.sku ≠ ("SHIP")) →
      ∃ c1, addShipping store id { distance := some d, cost := some k, location := some loc } =
          (OpOut.ok c1, saveCart store id c1) ∧
        c1.items = c.items ++ [shipItem k loc] ∧
        addShipping (saveCart store id c1) id
            { distance := some d, cost := some k, location := some loc } =
          (OpOut.ok c1, saveCart store id c1)) ∧
    ∀ l1 x l2, c.items = l1 ++ x :: l2 → x.sku = ("SHIP") →
      (∀ li ∈ l1, li.sku ≠ ("SHIP")) →
      ∃ c', addShipping store id { distance := some d, cost := some k, location := some loc } =
          (OpOut.ok c', saveCart store id c') ∧
        c'.items = l1 ++ { x with subtotal := k } :: l2 := by
  constructor
  · intro hfree
    have hne : ∀ li ∈ c.items, li.sku ≠ (shipItem k loc).sku := by
      intro li hli
      simpa [shipItem] using hfree li hli
    have h1 : shipUpdate c.items (shipItem k loc) = c.items ++ [shipItem k loc] :=
      shipUpdate_not_found c.items (shipItem k loc) hne
    refine ⟨recompute (c.items ++ [shipItem k loc]), ?_, by simp [recompute], ?_⟩
    · rw [addShipping_enc store id d k loc c hload, h1]
    · have hload2 : saveCart store id (recompute (c.items ++ [shipItem k loc])) id =
          some (Stored.enc (recompute (c.items ++ [shipItem k loc]))) := by
        rw [saveCart, setStore_self]
      rw [addShipping_enc _ id d k loc _ hload2]
      have h2 : shipUpdate (recompute (c.items ++ [shipItem k loc])).items (shipItem k loc) =
          c.items ++ [shipItem k loc] := by
        have := shipUpdate_found c.items ([] : List LineItem) (shipItem k loc) (shipItem k loc)
          hne rfl
        simpa [recompute, shipItem] using this
      rw [h2, saveCart_idem]
  · intro l1 x l2 hitems hx hfree1
    have hne1 : ∀ li ∈ l1, li.sku ≠ (shipItem k loc).sku := by
      intro li hli
      simpa [shipItem] using hfree1 li hli
    have hx' : x.sku = (shipItem k loc).sku := by
      simpa [shipItem] using hx
    refine ⟨recompute (l1 ++ { x with subtotal := k } :: l2), ?_, by simp [recompute]⟩
    rw [addShipping_enc store id d k loc c hload, hitems,
      shipUpdate_found l1 l2 x (shipItem k loc) hne1 hx']
    rfl

/-- A keyspace holding an empty cart under key c1. -/
def storeEmptyCart : Store := saveCart emptyStore ("c1") emptyCart

/-- Witness for the amended C5 at a concrete SHIP-free cart. -/
theorem addShipping_twice_replace_cost_witness :
    storeEmptyCart ("c1") = some (Stored.enc emptyCart) ∧
    (∀ li ∈ emptyCart.items, li.sku ≠ ("SHIP")) ∧
    ∃ c1, addShipping storeEmptyCart ("c1")
          { distance := some 10, cost := some 5, location := some ("X") } =
        (OpOut.ok c1, saveCart storeEmptyCart ("c1") c1) ∧
      c1.items = emptyCart.items ++ [shipItem 5 ("X")] ∧
      addShipping (saveCart storeEmptyCart ("c1") c1) ("c1")
          { distance := some 10, cost := some 5, location := some ("X") } =
        (OpOut.ok c1, saveCart storeEmptyCart ("c1") c1) :=
  ⟨by with_unfolding_all decide, by decide,
    (addShipping_twice_replace_cost storeEmptyCart ("c1") emptyCart 10 5 ("X")
      (by with_unfolding_all decide)).1 (by decide)⟩

/-- C9: a SHIP line attached by the shipping handler is an ordinary entry
of items: an update with qty at least one rescales its subtotal to the
shipping cost times qty, an update with qty zero removes shipping
entirely, and an add request for sku SHIP merges its quantity into the
SHIP line (using the line's stored price, the shipping cost) instead of
creating a product line. -/
theorem ship_is_ordinary_line (store : Store) (id : String) (c : Cart)
    (d k : ℚ) (loc : String)
    (hload : store id = some (Stored.enc c))
    (hfree : ∀ li ∈ c.items, li.sku ≠ ("SHIP")) :
    ∃ c1, addShipping store id { distance := some d, cost := some k, location := some loc } =
        (OpOut.ok c1, saveCart store id c1) ∧
      c1.items = c.items ++ [shipItem k loc] ∧
      (∀ q : Int, 1 ≤ q →
        ∃ c2, updateItemQ (saveCart store id c1) id ("SHIP") q =
            (OpOut.ok c2, saveCart (saveCart store id c1) id c2) ∧
          c2.items = c.items ++ [{ shipItem k loc with qty := q, subtotal := k * (q : ℚ) }]) ∧
      (∃ c3, updateItemQ (saveCart store id c1) id ("SHIP") 0 =
          (OpOut.ok c3, saveCart (saveCart store id c1) id c3) ∧
        c3.items = c.items ∧ ∀ li ∈ c3.items, li.sku ≠ ("SHIP")) ∧
      ∀ qtyStr (q : Int), parseIntJS qtyStr = some q → 1 ≤ q →
        ∃ c4, addItem (saveCart store id c1) id ("SHIP") qtyStr =
            (OpOut.ok c4, saveCart (saveCart store id c1) id c4) ∧
          c4.items = c.items ++
            [{ shipItem k loc with qty := 1 + q, subtotal := ((1 + q : Int) : ℚ) * k }] := by
  have hne : ∀ li ∈ c.items, li.sku ≠ (shipItem k loc).sku := by
    intro li hli
    simpa [shipItem] using hfree li hli
  have h1 : shipUpdate c.items (shipItem k loc) = c.items ++ [shipItem k loc] :=
    shipUpdate_not_found c.items (shipItem k loc) hne
  have hc1 : (recompute (c.items ++ [shipItem k loc])).items = c.items ++ [shipItem k loc] := by
    simp [recompute]
  have hload2 : saveCart store id (recompute (c.items ++ [shipItem k loc])) id =
      some (Stored.enc (recompute (c.items ++ [shipItem k loc]))) := by
    rw [saveCart, setStore_self]
  refine ⟨recompute (c.items ++ [shipItem k loc]), ?_, hc1, ?_, ?_, ?_⟩
  · rw [addShipping_enc store id d k loc c hload, h1]
  · intro q hq
    have hq0 : ¬ q < 0 := by omega
    have hqz : ¬ q = 0 := by omega
    have hu := updateList_found c.items ([] : List LineItem) (shipItem k loc) ("SHIP") q
      hfree rfl
    refine ⟨recompute (c.items ++ [{ shipItem k loc with qty := q, subtotal := k * (q : ℚ) }]),
      ?_, by simp [recompute]⟩
    rw [updateItemQ_enc _ id ("SHIP") q _ hload2 hq0, hc1, hu]
    simp only [hqz, if_false]
    have heq : ({ shipItem k loc with qty := q, subtotal := (shipItem k loc).price * (q : ℚ) } :
        LineItem) = { shipItem k loc with qty := q, subtotal := k * (q : ℚ) } := by
      simp [shipItem]
    rw [heq]
  · have hq0 : ¬ (0 : Int) < 0 := by omega
    have hu := updateList_found c.items ([] : List LineItem) (shipItem k loc) ("SHIP") 0
      hfree rfl
    refine ⟨recompute c.items, ?_, by simp [recompute], ?_⟩
    · rw [updateItemQ_enc _ id ("SHIP") 0 _ hload2 hq0, hc1, hu]
      simp [recompute]
    · intro li hli
      exact hfree li (by simpa [recompute] using hli)
  · intro qtyStr q hp hq
    have h1' : ¬ q < 1 := by omega
    have hmm : ∀ li ∈ c.items, li.sku ≠ (mkAddItem ("SHIP") (getProduct ("SHIP")) q).sku := by
      intro li hli
      simpa [mkAddItem] using hfree li hli
    have hm := mergeList_found c.items ([] : List LineItem) (shipItem k loc)
      (mkAddItem ("SHIP") (getProduct ("SHIP")) q) q hmm (by simp [mkAddItem, shipItem])
    refine ⟨recompute
      (c.items ++ [{ shipItem k loc with qty := 1 + q, subtotal := ((1 + q : Int) : ℚ) * k }]),
      ?_, by simp [recompute]⟩
    rw [addItem_parsed _ id ("SHIP") qtyStr q hp h1',
      addLoadMerge_some _ id ("SHIP") (getProduct ("SHIP")) q _
        (loadCart_save store id (recompute (c.items ++ [shipItem k loc]))), hc1, hm]
    have heq2 : ({ shipItem k loc with qty := (shipItem k loc).qty + q, subtotal := (((shipItem k loc).qty + q : Int) : ℚ) * (shipItem k loc).price } : LineItem) = { shipItem k loc with qty := 1 + q, subtotal := ((1 + q : Int) : ℚ) * k } := by
      simp [shipItem]
    rw [heq2]

/-- Witness for C9 at a concrete SHIP-free cart. -/
theorem ship_is_ordinary_line_witness :
    storeEmptyCart ("c1") = some (Stored.enc emptyCart) ∧
    (∀ li ∈ emptyCart.items, li.sku ≠ ("SHIP")) ∧
    ∃ c1, addShipping storeEmptyCart ("c1")
          { distance := some 10, cost := some 5, location := some ("Z") } =
        (OpOut.ok c1, saveCart storeEmptyCart ("c1") c1) ∧
      c1.items = emptyCart.items ++ [shipItem 5 ("Z")] ∧
      (∀ q : Int, 1 ≤ q →
        ∃ c2, updateItemQ (saveCart storeEmptyCart ("c1") c1) ("c1") ("SHIP") q =
            (OpOut.ok c2, saveCart (saveCart storeEmptyCart ("c1") c1) ("c1") c2) ∧
          c2.items = emptyCart.items ++
            [{ shipItem 5 ("Z") with qty := q, subtotal := 5 * (q : ℚ) }]) ∧
      (∃ c3, updateItemQ (saveCart storeEmptyCart ("c1") c1) ("c1") ("SHIP") 0 =
          (OpOut.ok c3, saveCart (saveCart storeEmptyCart ("c1") c1) ("c1") c3) ∧
        c3.items = emptyCart.items ∧ ∀ li ∈ c3.items, li.sku ≠ ("SHIP")) ∧
      ∀ qtyStr (q : Int), parseIntJS qtyStr = some q → 1 ≤ q →
        ∃ c4, addItem (saveCart storeEmptyCart ("c1") c1) ("c1") ("SHIP") qtyStr =
            (OpOut.ok c4, saveCart (saveCart storeEmptyCart ("c1") c1) ("c1") c4) ∧
          c4.items = emptyCart.items ++
            [{ shipItem 5 ("Z") with qty := 1 + q, subtotal := ((1 + q : Int) : ℚ) * 5 }] :=
  ⟨by with_unfolding_all decide, by decide,
    ship_is_ordinary_line storeEmptyCart ("c1") emptyCart 10 5 ("Z")
      (by with_unfolding_all decide) (by decide)⟩

lemma sumQ_cons (a : String × Product × Int) (l : List (String × Product × Int)) :
    sumQ (a :: l) = a.2.2 + sumQ l := by
  simp [sumQ]

lemma cartAfter_items (adds : List (String × Product × Int)) :
    ∀ c : Cart, (cartAfter c adds).items = itemsAfter c.items adds := by
  induction adds with
  | nil => intro c; rfl
  | cons a rest ih =>
    intro c
    obtain ⟨s, p, qv⟩ := a
    show (cartAfter (recompute (mergeList c.items (mkAddItem s p qv) qv)) rest).items =
      itemsAfter c.items ((s, p, qv) :: rest)
    rw [ih]
    rfl

lemma runAdds_load (id : String) (adds : List (String × Product × Int)) :
    ∀ (store : Store) (c : Cart), loadCart (store id) = some c →
    (∀ a ∈ adds, (a : String × Product × Int).2.1.instock ≠ 0) →
    loadCart ((runAdds store id adds) id) = some (cartAfter c adds) := by
  induction adds with
  | nil =>
    intro store c h _
    simpa [runAdds, cartAfter] using h
  | cons a rest ih =>
    intro store c hload hstock
    obtain ⟨s, p, qv⟩ := a
    have hstep : (addItemWith store id s (some p) qv).2 =
        saveCart store id (recompute (mergeList c.items (mkAddItem s p qv) qv)) := by
      rw [addItemWith_stock store id s p qv (hstock (s, p, qv) (by simp)),
        addLoadMerge_some store id s p qv c hload]
    show loadCart ((runAdds ((addItemWith store id s (some p) qv).2) id rest) id) =
      some (cartAfter c ((s, p, qv) :: rest))
    rw [hstep]
    exact ih (saveCart store id (recompute (mergeList c.items (mkAddItem s p qv) qv)))
      (recompute (mergeList c.items (mkAddItem s p qv) qv))
      (loadCart_save _ _ _)
      (fun a ha => hstock a (by simp [ha]))

lemma itemsAfter_same_sku (sku : String) (rest : List (String × Product × Int)) :
    ∀ (base : List LineItem) (line : LineItem),
    (∀ li ∈ base, li.sku ≠ sku) → line.sku = sku →
    line.subtotal = (line.qty : ℚ) * line.price →
    (∀ a ∈ rest, (a : String × Product × Int).1 = sku) →
    itemsAfter (base ++ [line]) rest =
      base ++ [{ line with qty := line.qty + sumQ rest, subtotal := ((line.qty + sumQ rest : Int) : ℚ) * line.price }] := by
  induction rest with
  | nil =>
    intro base line hbase hsku hsub _
    show base ++ [line] = _
    obtain ⟨ls, ln, lq, lp, lsub⟩ := line
    dsimp only at hsub ⊢
    simp [sumQ, hsub]
  | cons a rest ih =>
    intro base line hbase hsku hsub hallsku
    obtain ⟨s, p, qv⟩ := a
    obtain ⟨ls, ln, lq, lp, lsub⟩ := line
    dsimp only at hsku hsub ⊢
    have hs : s = sku := hallsku (s, p, qv) (by simp)
    have hm := mergeList_found base ([] : List LineItem) ⟨ls, ln, lq, lp, lsub⟩
      (mkAddItem s p qv) qv
      (fun li hli => by
        show li.sku ≠ (mkAddItem s p qv).sku
        simpa [mkAddItem, hs] using hbase li hli)
      (by simp [mkAddItem, hs, hsku])
    show itemsAfter (mergeList (base ++ [(⟨ls, ln, lq, lp, lsub⟩ : LineItem)]) (mkAddItem s p qv) qv) rest = _
    rw [hm]
    rw [ih base ⟨ls, ln, lq + qv, lp, ((lq + qv : Int) : ℚ) * lp⟩ hbase hsku rfl
      (fun a ha => hallsku a (by simp [ha]))]
    simp [sumQ_cons, add_assoc]

/-- C2: consecutive add requests for one sku accumulate into a single line
item: starting from a cart without the sku, the first add appends a line
at the end of items (pre-existing items untouched and in order), and each
further add for the same sku bumps that line's qty, so the final line has
qty equal to the sum of all requested quantities and subtotal equal to the
first add's catalogue price times that qty (the prices of the later
resolved products are never consulted); the sku occurs in exactly one line. -/
theorem addItem_accumulates (store : Store) (id sku : String) (c : Cart)
    (p1 : Product) (q1 : Int) (rest : List (String × Product × Int))
    (hload : loadCart (store id) = some c)
    (hfree : ∀ li ∈ c.items, li.sku ≠ sku)
    (hsku : ∀ a ∈ rest, (a : String × Product × Int).1 = sku)
    (hq1 : 1 ≤ q1) (hq : ∀ a ∈ rest, 1 ≤ (a : String × Product × Int).2.2)
    (hs1 : p1.instock ≠ 0) (hs : ∀ a ∈ rest, (a : String × Product × Int).2.1.instock ≠ 0) :
    ∃ c', loadCart ((runAdds store id ((sku, p1, q1) :: rest)) id) = some c' ∧
      c'.items = c.items ++ [{ sku := sku, name := p1.name, qty := q1 + sumQ rest, price := p1.price, subtotal := ((q1 + sumQ rest : Int) : ℚ) * p1.price }] ∧
      c'.items.countP (fun li => li.sku == sku) = 1 := by
  have hstock : ∀ a ∈ (sku, p1, q1) :: rest, (a : String × Product × Int).2.1.instock ≠ 0 := by
    intro a ha
    rcases List.mem_cons.mp ha with h | h
    · rw [h]
      exact hs1
    · exact hs a h
  have hA := runAdds_load id ((sku, p1, q1) :: rest) store c hload hstock
  have hm : mergeList c.items (mkAddItem sku p1 q1) q1 = c.items ++ [mkAddItem sku p1 q1] :=
    mergeList_not_found c.items _ q1
      (fun li hli => by
        show li.sku ≠ (mkAddItem sku p1 q1).sku
        simpa [mkAddItem] using hfree li hli)
  have hitems : (cartAfter c ((sku, p1, q1) :: rest)).items =
      c.items ++ [{ sku := sku, name := p1.name, qty := q1 + sumQ rest, price := p1.price, subtotal := ((q1 + sumQ rest : Int) : ℚ) * p1.price }] := by
    rw [cartAfter_items]
    show itemsAfter (mergeList c.items (mkAddItem sku p1 q1) q1) rest = _
    rw [hm, itemsAfter_same_sku sku rest c.items (mkAddItem sku p1 q1) hfree rfl rfl hsku]
    simp [mkAddItem]
  refine ⟨cartAfter c ((sku, p1, q1) :: rest), hA, hitems, ?_⟩
  rw [hitems, List.countP_append]
  have h0 : c.items.countP (fun li => li.sku == sku) = 0 := by
    rw [List.countP_eq_zero]
    intro li hli
    simpa using hfree li hli
  rw [h0]
  simp

/-- Witness for C2 at two concrete adds of sku X with quantities 2 and 3. -/
theorem addItem_accumulates_witness :
    loadCart (emptyStore ("c1")) = some emptyCart ∧
    (∀ li ∈ emptyCart.items, li.sku ≠ ("X")) ∧
    ∃ c', loadCart ((runAdds emptyStore ("c1")
        [(("X"), getProduct ("X"), 2), (("X"), getProduct ("X"), 3)]) ("c1")) = some c' ∧
      c'.items = emptyCart.items ++ [{ sku := ("X"), name := (getProduct ("X")).name, qty := 2 + sumQ [(("X"), getProduct ("X"), 3)], price := (getProduct ("X")).price, subtotal := ((2 + sumQ [(("X"), getProduct ("X"), 3)] : Int) : ℚ) * (getProduct ("X")).price }] ∧
      c'.items.countP (fun li => li.sku == ("X")) = 1 :=
  ⟨rfl, by decide,
    addItem_accumulates emptyStore ("c1") ("X") emptyCart (getProduct ("X")) 2
      [(("X"), getProduct ("X"), 3)] rfl (by decide) (by decide) (by decide)
      (by decide) (by decide) (by decide)⟩

lemma eraseSku_mergeList_ne (l : List LineItem) (item : LineItem) (q : Int) (sku : String)
    (h : item.sku ≠ sku) :
    eraseSku (mergeList l item q) sku = mergeList (eraseSku l sku) item q := by
  induction l with
  | nil => simp [mergeList, eraseSku, h]
  | cons li rest ih =>
    have h2 : ¬ sku = item.sku := fun hh => h hh.symm
    by_cases hli : li.sku = sku
    · have hne : ¬ li.sku = item.sku := by
        rw [hli]
        exact h2
      simp [mergeList, eraseSku, hne, hli, h2, h]
    · by_cases hmatch : li.sku = item.sku
      · simp [mergeList, hmatch, eraseSku, hli, h2, h]
      · simp [mergeList, hmatch, eraseSku, hli, ih, h2, h]

lemma eraseSku_mergeList_eq (l : List LineItem) (item : LineItem) (q : Int) (sku : String)
    (h : item.sku = sku) :
    eraseSku (mergeList l item q) sku = eraseSku l sku := by
  induction l with
  | nil => simp [mergeList, eraseSku, h]
  | cons li rest ih =>
    by_cases hmatch : li.sku = item.sku
    · simp [mergeList, hmatch, eraseSku, hmatch.trans h, h]
    · have hli : ¬ li.sku = sku := fun hh => hmatch (hh.trans h.symm)
      simp [mergeList, hmatch, eraseSku, hli, ih, h]

lemma itemsAfter_erase (sku : String) (adds : List (String × Product × Int)) :
    ∀ l : List LineItem, eraseSku (itemsAfter l adds) sku =
      itemsAfter (eraseSku l sku) (adds.filter (fun a => a.1 != sku)) := by
  induction adds with
  | nil => intro l; rfl
  | cons a rest ih =>
    intro l
    obtain ⟨s, p, qv⟩ := a
    by_cases hs : s = sku
    · have hfilter : ((s, p, qv) :: rest).filter (fun a => a.1 != sku) =
          rest.filter (fun a => a.1 != sku) := by
        simp [List.filter_cons, hs]
      rw [hfilter]
      show eraseSku (itemsAfter (mergeList l (mkAddItem s p qv) qv) rest) sku = _
      rw [ih, eraseSku_mergeList_eq l (mkAddItem s p qv) qv sku (by simp [mkAddItem, hs])]
    · have hfilter : ((s, p, qv) :: rest).filter (fun a => a.1 != sku) =
          (s, p, qv) :: rest.filter (fun a => a.1 != sku) := by
        simp [List.filter_cons, hs]
      rw [hfilter]
      show eraseSku (itemsAfter (mergeList l (mkAddItem s p qv) qv) rest) sku =
        itemsAfter (mergeList (eraseSku l sku) (mkAddItem s p qv) qv)
          (rest.filter (fun a => a.1 != sku))
      rw [ih, eraseSku_mergeList_ne l (mkAddItem s p qv) qv sku (by simp [mkAddItem, hs])]

lemma mergeList_sku_mem (l : List LineItem) (item : LineItem) (q : Int) :
    item.sku ∈ (mergeList l item q).map LineItem.sku := by
  induction l with
  | nil => simp [mergeList]
  | cons li rest ih =>
    by_cases hmatch : li.sku = item.sku
    · simp [mergeList, hmatch]
    · simp only [mergeList, hmatch, if_false, List.map_cons, List.mem_cons]
      exact Or.inr ih

lemma mergeList_sku_sub (l : List LineItem) (item : LineItem) (q : Int) (s : String)
    (h : s ∈ l.map LineItem.sku) : s ∈ (mergeList l item q).map LineItem.sku := by
  induction l with
  | nil => simp at h
  | cons li rest ih =>
    simp only [List.map_cons, List.mem_cons] at h
    by_cases hmatch : li.sku = item.sku
    · simp only [mergeList, hmatch, if_true, List.map_cons, List.mem_cons]
      rcases h with h | h
      · exact Or.inl (h.trans hmatch)
      · exact Or.inr h
    · simp only [mergeList, hmatch, if_false, List.map_cons, List.mem_cons]
      rcases h with h | h
      · exact Or.inl h
      · exact Or.inr (ih h)

lemma itemsAfter_sku_mono (adds : List (String × Product × Int)) :
    ∀ (l : List LineItem) (s : String), s ∈ l.map LineItem.sku →
    s ∈ (itemsAfter l adds).map LineItem.sku := by
  induction adds with
  | nil => intro l s h; exact h
  | cons a rest ih =>
    intro l s h
    obtain ⟨s1, p, qv⟩ := a
    exact ih _ s (mergeList_sku_sub l _ qv s h)

lemma itemsAfter_sku_mem (adds : List (String × Product × Int)) :
    ∀ (l : List LineItem) (sku : String), sku ∈ adds.map (fun a => a.1) →
    sku ∈ (itemsAfter l adds).map LineItem.sku := by
  induction adds with
  | nil =>
    intro l sku h
    simp at h
  | cons a rest ih =>
    intro l sku h
    obtain ⟨s1, p, qv⟩ := a
    rw [List.map_cons] at h
    rcases List.mem_cons.mp h with h1 | h1
    · have h1' : sku = s1 := h1
      have := mergeList_sku_mem l (mkAddItem s1 p qv) qv
      have hmem : sku ∈ (mergeList l (mkAddItem s1 p qv) qv).map LineItem.sku := by
        rw [h1']
        simpa [mkAddItem] using this
      exact itemsAfter_sku_mono rest _ sku hmem
    · exact ih _ sku h1

lemma mergeList_sku_all (l : List LineItem) (item : LineItem) (q : Int) (s : String)
    (hl : ∀ li ∈ l, li.sku ≠ s) (hi : item.sku ≠ s) :
    ∀ li ∈ mergeList l item q, li.sku ≠ s := by
  induction l with
  | nil => simpa [mergeList] using hi
  | cons li rest ih =>
    by_cases hmatch : li.sku = item.sku
    · simp only [mergeList, hmatch, if_true]
      intro x hx
      rcases List.mem_cons.mp hx with h | h
      · rw [h]
        exact hi
      · exact hl x (by simp [h])
    · simp only [mergeList, hmatch, if_false]
      intro x hx
      rcases List.mem_cons.mp hx with h | h
      · rw [h]
        exact hl li (by simp)
      · exact ih (fun y hy => hl y (by simp [hy])) x h

lemma itemsAfter_sku_free (sku : String) (adds : List (String × Product × Int)) :
    ∀ l : List LineItem, (∀ a ∈ adds, (a : String × Product × Int).1 ≠ sku) →
    (∀ li ∈ l, li.sku ≠ sku) → ∀ li ∈ itemsAfter l adds, li.sku ≠ sku := by
  induction adds with
  | nil => intro l _ hl; exact hl
  | cons a rest ih =>
    intro l hadds hl
    obtain ⟨s, p, qv⟩ := a
    have hs : s ≠ sku := hadds (s, p, qv) (by simp)
    exact ih _ (fun a ha => hadds a (by simp [ha]))
      (mergeList_sku_all l (mkAddItem s p qv) qv sku hl (by simpa [mkAddItem] using hs))

lemma updateList_erase (l : List LineItem) (sku : String)
    (h : sku ∈ l.map LineItem.sku) :
    updateList l sku 0 = some (eraseSku l sku) := by
  induction l with
  | nil => simp at h
  | cons li rest ih =>
    by_cases hli : li.sku = sku
    · simp [updateList, hli, eraseSku]
    · have h' : sku ∈ rest.map LineItem.sku := by
        rw [List.map_cons] at h
        rcases List.mem_cons.mp h with h1 | h1
        · exact absurd h1.symm hli
        · exact h1
      simp [updateList, hli, eraseSku, ih h']

lemma cartAfter_wf (adds : List (String × Product × Int)) :
    ∀ c : Cart, c.total = calcTotal c.items → c.tax = calcTax c.total →
    (cartAfter c adds).total = calcTotal (cartAfter c adds).items ∧
    (cartAfter c adds).tax = calcTax (cartAfter c adds).total := by
  induction adds with
  | nil => intro c h1 h2; exact ⟨h1, h2⟩
  | cons a rest ih =>
    intro c h1 h2
    obtain ⟨s, p, qv⟩ := a
    exact ih _ rfl rfl

lemma runAdds_get (id : String) (adds : List (String × Product × Int)) :
    ∀ (store : Store) (c : Cart), store id = some (Stored.enc c) →
    (∀ a ∈ adds, (a : String × Product × Int).2.1.instock ≠ 0) →
    (runAdds store id adds) id = some (Stored.enc (cartAfter c adds)) := by
  induction adds with
  | nil =>
    intro store c h _
    simpa [runAdds, cartAfter] using h
  | cons a rest ih =>
    intro store c hload hstock
    obtain ⟨s, p, qv⟩ := a
    have hL : loadCart (store id) = some c := by
      rw [hload]
      rfl
    have hstep : (addItemWith store id s (some p) qv).2 =
        saveCart store id (recompute (mergeList c.items (mkAddItem s p qv) qv)) := by
      rw [addItemWith_stock store id s p qv (hstock (s, p, qv) (by simp)),
        addLoadMerge_some store id s p qv c hL]
    show (runAdds ((addItemWith store id s (some p) qv).2) id rest) id =
      some (Stored.enc (cartAfter c ((s, p, qv) :: rest)))
    rw [hstep]
    exact ih _ _ (by rw [saveCart, setStore_self]) (fun a ha => hstock a (by simp [ha]))

lemma mergeList_length (l : List LineItem) (item : LineItem) (q : Int) :
    l.length ≤ (mergeList l item q).length := by
  induction l with
  | nil => simp [mergeList]
  | cons li rest ih =>
    by_cases hmatch : li.sku = item.sku
    · simp [mergeList, hmatch]
    · simp only [mergeList, hmatch, if_false, List.length_cons]
      omega

lemma shipUpdate_length (l : List LineItem) (item : LineItem) :
    l.length ≤ (shipUpdate l item).length := by
  induction l with
  | nil => simp [shipUpdate]
  | cons li rest ih =>
    by_cases hmatch : li.sku = item.sku
    · simp [shipUpdate, hmatch]
    · simp only [shipUpdate, hmatch, if_false, List.length_cons]
      omega

lemma updateList_length (l : List LineItem) (sku : String) (q : Int) (hq : ¬ q = 0) :
    ∀ l', updateList l sku q = some l' → l'.length = l.length := by
  induction l with
  | nil =>
    intro l' h
    simp [updateList] at h
  | cons li rest ih =>
    intro l' h
    by_cases hli : li.sku = sku
    · simp [updateList, hli, hq] at h
      rw [← h]
      simp
    · simp only [updateList, hli, if_false] at h
      cases hu : updateList rest sku q with
      | none =>
        rw [hu] at h
        simp at h
      | some lr =>
        rw [hu] at h
        simp at h
        rw [← h]
        simp [ih lr hu]

/-- C4: an update to quantity zero splices out exactly the line with that
sku and is the only removal path: on a cart built by any sequence of adds
against a previously absent key, updating a contained sku to zero yields a
persisted cart (still present under the id even when it became empty)
whose items, total and tax are exactly those of the cart built by the same
add sequence with every add of that sku left out; and no add, shipping, or
positive-quantity update ever shrinks the item list. -/
theorem updateItem_zero_never_added (store : Store) (id sku : String)
    (adds : List (String × Product × Int))
    (habs : store id = none)
    (hq : ∀ a ∈ adds, 1 ≤ (a : String × Product × Int).2.2)
    (hstock : ∀ a ∈ adds, (a : String × Product × Int).2.1.instock ≠ 0)
    (hmem : sku ∈ adds.map (fun a => a.1)) :
    (∃ c', updateItemQ (runAdds store id adds) id sku 0 =
        (OpOut.ok c', saveCart (runAdds store id adds) id c') ∧
      (updateItemQ (runAdds store id adds) id sku 0).2 id = some (Stored.enc c') ∧
      (∀ li ∈ c'.items, li.sku ≠ sku) ∧
      ∃ b, loadCart ((runAdds store id (adds.filter (fun a => a.1 != sku))) id) = some b ∧
        c'.items = b.items ∧ c'.total = b.total ∧ c'.tax = b.tax) ∧
    (∀ (st : Store) (i s : String) (p : Product) (qv : Int) (pre cres : Cart),
      loadCart (st i) = some pre → (addItemWith st i s (some p) qv).1 = OpOut.ok cres →
      pre.items.length ≤ cres.items.length) ∧
    (∀ (st : Store) (i : String) (body : ShippingBody) (pre cres : Cart),
      st i = some (Stored.enc pre) → (addShipping st i body).1 = OpOut.ok cres →
      pre.items.length ≤ cres.items.length) ∧
    (∀ (st : Store) (i s : String) (qv : Int) (pre cres : Cart),
      st i = some (Stored.enc pre) → 1 ≤ qv → (updateItemQ st i s qv).1 = OpOut.ok cres →
      cres.items.length = pre.items.length) := by
  refine ⟨?_, ?_, ?_, ?_⟩
  · cases adds with
    | nil => simp at hmem
    | cons a rest =>
      obtain ⟨s0, p0, q0⟩ := a
      have hL0 : loadCart (store id) = some emptyCart := by
        rw [habs]
        rfl
      have hstep : (addItemWith store id s0 (some p0) q0).2 =
          saveCart store id (recompute (mergeList emptyCart.items (mkAddItem s0 p0 q0) q0)) := by
        rw [addItemWith_stock store id s0 p0 q0 (hstock (s0, p0, q0) (by simp)),
          addLoadMerge_some store id s0 p0 q0 emptyCart hL0]
      have hS : (runAdds store id ((s0, p0, q0) :: rest)) id =
          some (Stored.enc (cartAfter emptyCart ((s0, p0, q0) :: rest))) := by
        show (runAdds ((addItemWith store id s0 (some p0) q0).2) id rest) id = _
        rw [hstep]
        exact runAdds_get id rest _ _ (by rw [saveCart, setStore_self])
          (fun a ha => hstock a (by simp [ha]))
      have hmemA : sku ∈ (cartAfter emptyCart ((s0, p0, q0) :: rest)).items.map LineItem.sku := by
        rw [cartAfter_items]
        exact itemsAfter_sku_mem ((s0, p0, q0) :: rest) emptyCart.items sku hmem
      have hupd : updateList (cartAfter emptyCart ((s0, p0, q0) :: rest)).items sku 0 =
          some (eraseSku (cartAfter emptyCart ((s0, p0, q0) :: rest)).items sku) :=
        updateList_erase _ sku hmemA
      have hq0 : ¬ (0 : Int) < 0 := by omega
      have hrun := updateItemQ_enc (runAdds store id ((s0, p0, q0) :: rest)) id sku 0 _ hS hq0
      simp only [hupd] at hrun
      have hE : eraseSku (cartAfter emptyCart ((s0, p0, q0) :: rest)).items sku =
          (cartAfter emptyCart (((s0, p0, q0) :: rest).filter (fun a => a.1 != sku))).items := by
        rw [cartAfter_items, cartAfter_items]
        exact itemsAfter_erase sku ((s0, p0, q0) :: rest) emptyCart.items
      have hBwf := cartAfter_wf (((s0, p0, q0) :: rest).filter (fun a => a.1 != sku)) emptyCart
        rfl (by simp [calcTax, emptyCart, calcTotal])
      have hfreeB : ∀ li ∈ (cartAfter emptyCart
          (((s0, p0, q0) :: rest).filter (fun a => a.1 != sku))).items, li.sku ≠ sku := by
        rw [cartAfter_items]
        refine itemsAfter_sku_free sku _ emptyCart.items ?_ ?_
        · intro a ha
          have hmf := List.mem_filter.mp ha
          simpa using hmf.2
        · intro li hli
          simp [emptyCart] at hli
      refine ⟨recompute (eraseSku (cartAfter emptyCart ((s0, p0, q0) :: rest)).items sku),
        hrun, ?_, ?_, ?_⟩
      · rw [hrun]
        simp [saveCart, setStore]
      · intro li hli
        have : li ∈ (cartAfter emptyCart
            (((s0, p0, q0) :: rest).filter (fun a => a.1 != sku))).items := by
          rw [← hE]
          simpa [recompute] using hli
        exact hfreeB li this
      · refine ⟨cartAfter emptyCart (((s0, p0, q0) :: rest).filter (fun a => a.1 != sku)),
          ?_, ?_, ?_, ?_⟩
        · refine runAdds_load id _ store emptyCart hL0 ?_
          intro a ha
          exact hstock a (List.mem_of_mem_filter ha)
        · simpa [recompute] using hE
        · show calcTotal (eraseSku (cartAfter emptyCart ((s0, p0, q0) :: rest)).items sku) = _
          rw [hE]
          exact hBwf.1.symm
        · show calcTax (calcTotal
            (eraseSku (cartAfter emptyCart ((s0, p0, q0) :: rest)).items sku)) = _
          rw [hE, ← hBwf.1]
          exact hBwf.2.symm
  · intro st i s p qv pre cres hpre hok
    by_cases hs : p.instock = 0
    · have heq : addItemWith st i s (some p) qv = (OpOut.err ErrKind.outOfStock, st) := by
        show (if p.instock = 0 then (OpOut.err ErrKind.outOfStock, st)
          else addLoadMerge st i s p qv) = _
        rw [if_pos hs]
      rw [heq] at hok
      simp at hok
    · rw [addItemWith_stock st i s p qv hs, addLoadMerge_some st i s p qv pre hpre] at hok
      simp only at hok
      obtain rfl : recompute (mergeList pre.items (mkAddItem s p qv) qv) = cres := by
        injection hok
      simpa [recompute] using mergeList_length pre.items (mkAddItem s p qv) qv
  · intro st i body pre cres hpre hok
    obtain ⟨d?, c?, l?⟩ := body
    cases d? with
    | none =>
      have heq : addShipping st i ⟨none, c?, l?⟩ = (OpOut.err ErrKind.shippingDataMissing, st) :=
        rfl
      rw [heq] at hok
      simp at hok
    | some d =>
      cases c? with
      | none =>
        have heq : addShipping st i ⟨some d, none, l?⟩ =
            (OpOut.err ErrKind.shippingDataMissing, st) := rfl
        rw [heq] at hok
        simp at hok
      | some k =>
        cases l? with
        | none =>
          have heq : addShipping st i ⟨some d, some k, none⟩ =
              (OpOut.err ErrKind.shippingDataMissing, st) := rfl
          rw [heq] at hok
          simp at hok
        | some loc =>
          rw [addShipping_enc st i d k loc pre hpre] at hok
          simp only at hok
          obtain rfl : recompute (shipUpdate pre.items (shipItem k loc)) = cres := by
            injection hok
          simpa [recompute] using shipUpdate_length pre.items (shipItem k loc)
  · intro st i s qv pre cres hpre hqv hok
    have hq0 : ¬ qv < 0 := by omega
    rw [updateItemQ_enc st i s qv pre hpre hq0] at hok
    cases hu : updateList pre.items s qv with
    | none =>
      rw [hu] at hok
      simp at hok
    | some lr =>
      rw [hu] at hok
      simp only at hok
      obtain rfl : recompute lr = cres := by
        injection hok
      simpa [recompute] using updateList_length pre.items s qv (by omega) lr hu

/-- Witness for C4 at a concrete add sequence covering skus X and Y. -/
theorem updateItem_zero_never_added_witness :
    emptyStore ("c1") = none ∧
    ("X") ∈ ([(("X"), getProduct ("X"), 2), (("Y"), getProduct ("Y"), 1)].map (fun a => a.1)) ∧
    ∃ c', updateItemQ (runAdds emptyStore ("c1")
          [(("X"), getProduct ("X"), 2), (("Y"), getProduct ("Y"), 1)]) ("c1") ("X") 0 =
        (OpOut.ok c', saveCart (runAdds emptyStore ("c1")
          [(("X"), getProduct ("X"), 2), (("Y"), getProduct ("Y"), 1)]) ("c1") c') ∧
      (updateItemQ (runAdds emptyStore ("c1")
          [(("X"), getProduct ("X"), 2), (("Y"), getProduct ("Y"), 1)]) ("c1") ("X") 0).2 ("c1") =
        some (Stored.enc c') ∧
      (∀ li ∈ c'.items, li.sku ≠ ("X")) ∧
      ∃ b, loadCart ((runAdds emptyStore ("c1")
          ([(("X"), getProduct ("X"), 2), (("Y"), getProduct ("Y"), 1)].filter
            (fun a => a.1 != ("X")))) ("c1")) = some b ∧
        c'.items = b.items ∧ c'.total = b.total ∧ c'.tax = b.tax :=
  ⟨rfl, by decide,
    (updateItem_zero_never_added emptyStore ("c1") ("X")
      [(("X"), getProduct ("X"), 2), (("Y"), getProduct ("Y"), 1)]
      rfl (by decide) (by decide) (by decide)).1⟩

end CartService
